import Mathlib

/-!
Shallow embedding of the yt-factory orchestrator core, translated from the
TypeScript sources, together with theorems settling the specification claims.

Components embedded here:
* the project state machine (`STATE_TRANSITIONS`, `WorkflowManager`:
  `transitionState`, `handleError`, `attemptDegradedRetry`, `moveToDeadLetter`,
  `recoverStaleProject`),
* the error classifier (`ModelDegradationManager.parseErrorFingerprint`,
  `shouldDegrade`, `getNextModel`),
* the LLM client fallback loop (`GeminiClient.generate`,
  `generateWithFallback`, `withRetry`),
* the ingress watcher (`FolderWatcher.handleFileAdd`),
* the bounded priority queue (`PriorityQueue.enqueue`, `dropLowestPriority`),
* the token-bucket rate limiter (`TokenBucket.acquire`, `refill`),
* the trend store (`TrendsHook.enrichWithAuthority`).

Timestamps are modelled as natural numbers (milliseconds) except where the
source divides time (token bucket, trends), where rationals are used.
JavaScript strings are modelled as Lean `String`s; substring tests use an
explicit infix check on the character lists.
-/

namespace YtFactory

/-- Does `pat` occur as a contiguous run of `cs`? -/

def charsContain (pat : List Char) : List Char → Bool
  | [] => pat.isEmpty
  | c :: rest => pat.isPrefixOf (c :: rest) || charsContain pat rest

/-- Substring containment, modelling JavaScript `String.prototype.includes`. -/

def strContains (s pat : String) : Bool :=
  charsContain pat.data s.data

/-! ## Project status and the allowed-transition table -/

/-- Source `ProjectManifest['status']` — the status enum of the manifest schema. -/

inductive Status
  | pending
  | analyzing
  | pending_audio
  | rendering
  | uploading
  | completed
  | failed
  | stale_recovered
  | degraded_retry
  | dead_letter
  deriving DecidableEq, Repr

open Status

/-- Source `STATE_TRANSITIONS` from the workflow module: the allowed-transition
table of the state machine. -/

def STATE_TRANSITIONS : Status → List Status
  | pending => [analyzing]
  | analyzing => [pending_audio, rendering, failed, stale_recovered, degraded_retry, dead_letter]
  | pending_audio => [rendering, failed, stale_recovered, dead_letter]
  | rendering => [uploading, failed, stale_recovered, dead_letter]
  | uploading => [completed, failed, stale_recovered, dead_letter]
  | completed => []
  | failed => [pending, dead_letter]
  | stale_recovered => [pending]
  | degraded_retry => [analyzing, failed, dead_letter]
  | dead_letter => []

/-- The allowed-transition relation exactly as the specification's table
states it, written independently of `STATE_TRANSITIONS` so the code table
can be compared against the spec's words. -/

def specAllowed : Status → Status → Bool
  | pending, analyzing => true
  | analyzing, pending_audio => true
  | analyzing, rendering => true
  | analyzing, failed => true
  | analyzing, stale_recovered => true
  | analyzing, degraded_retry => true
  | analyzing, dead_letter => true
  | pending_audio, rendering => true
  | pending_audio, failed => true
  | pending_audio, stale_recovered => true
  | pending_audio, dead_letter => true
  | rendering, uploading => true
  | rendering, failed => true
  | rendering, stale_recovered => true
  | rendering, dead_letter => true
  | uploading, completed => true
  | uploading, failed => true
  | uploading, stale_recovered => true
  | uploading, dead_letter => true
  | failed, pending => true
  | failed, dead_letter => true
  | stale_recovered, pending => true
  | degraded_retry, analyzing => true
  | degraded_retry, failed => true
  | degraded_retry, dead_letter => true
  | _, _ => false

/-! ## Error fingerprints and the classifier -/

/-- The `kind` tag of an `ErrorFingerprint` (`ErrorFingerprintSchema.type`). -/

inductive FingerprintType
  | zod_validation
  | gemini_api
  | network
  | file_system
  | unknown
  deriving DecidableEq, Repr

/-- Source `ErrorFingerprint` — the classifier's output record. -/

structure ErrorFingerprint where
  type : FingerprintType
  code : String
  path : Option String := none
  message : String
  deriving DecidableEq, Repr

/-- One issue of a Zod validation error (`z.ZodIssue`): issue code, path
segments and message. -/

structure ZodIssue where
  code : String
  path : List String
  message : String
  deriving DecidableEq, Repr

/-- The exception value passed to `parseErrorFingerprint`: either a Zod
validation error carrying its issues, or a plain `Error` carrying a
message. -/

inductive JsError
  | zodError (message : String) (issues : List ZodIssue)
  | plain (message : String)
  deriving DecidableEq, Repr

/-- Message of a `JsError` (JavaScript `error.message`). -/

def JsError.message : JsError → String
  | .zodError m _ => m
  | .plain m => m

/-- The five filesystem error codes of the regex in `extractFsErrorCode`,
in alternation order. -/

def fsCodes : List String := ["ENOENT", "EACCES", "EPERM", "EEXIST", "ENOTDIR"]

/-- Leftmost match of one of `fsCodes` in a character list, preferring
earlier alternatives at the same position — the semantics of the JS regex
`/(ENOENT|EACCES|EPERM|EEXIST|ENOTDIR)/` used by `extractFsErrorCode`. -/

def findFsCode : List Char → Option String
  | [] => none
  | c :: rest =>
    match fsCodes.find? (fun code => code.data.isPrefixOf (c :: rest)) with
    | some code => some code
    | none => findFsCode rest

/-- Source `ModelDegradationManager.extractFsErrorCode`: the leftmost of the five
codes, lowercased, else the literal `fs_unknown`. -/

def extractFsErrorCode (message : String) : String :=
  match findFsCode message.data with
  | some code => code.toLower
  | none => "fs_unknown"

/-- Is `c` a JS `\w` word character (ASCII letter, digit or underscore)? -/

def isWordChar (c : Char) : Bool :=
  c.isAlpha || c.isDigit || c = '_'

/-- Is `c` a JS `\s` whitespace character (approximated by ASCII
whitespace, which is what the orchestrator's messages contain)? -/

def isWsChar (c : Char) : Bool :=
  c = ' ' || c = '\t' || c = '\n' || c = '\r'

/-- Try the pattern `\[(\d{3})\s+(\w+)\]` at the head of a character list,
returning the status digits and the reason word on a match. -/

def statusMatchAt : List Char → Option (String × String)
  | '[' :: rest =>
    let digits := rest.takeWhile Char.isDigit
    if digits.length = 3 then
      let afterDigits := rest.drop 3
      let ws := afterDigits.takeWhile isWsChar
      if ws.isEmpty then none
      else
        let afterWs := afterDigits.drop ws.length
        let word := afterWs.takeWhile isWordChar
        if word.isEmpty then none
        else
          match afterWs.drop word.length with
          | ']' :: _ => some (String.mk digits, String.mk word)
          | _ => none
    else none
  | _ => none

/-- Leftmost match of `\[(\d{3})\s+(\w+)\]` in a character list. -/

def statusMatchScan : List Char → Option (String × String)
  | [] => none
  | c :: rest =>
    match statusMatchAt (c :: rest) with
    | some r => some r
    | none => statusMatchScan rest

/-- Try the pattern `GoogleGenerativeAI(?:Error)?:\s*(\w+)` (case
insensitively, on an already lowercased list) at the head of a character
list, returning the captured word. -/

def typeMatchAt (cs : List Char) : Option String :=
  if "googlegenerativeai".data.isPrefixOf cs then
    let rest := cs.drop 18
    let afterTag :=
      if "error".data.isPrefixOf rest ∧ (rest.drop 5).headD ' ' = ':' then some (rest.drop 6)
      else if rest.headD ' ' = ':' then some (rest.drop 1)
      else none
    match afterTag with
    | none => none
    | some afterColon =>
      let afterWs := afterColon.drop (afterColon.takeWhile isWsChar).length
      let word := afterWs.takeWhile isWordChar
      if word.isEmpty then none else some (String.mk word)
  else none

/-- Leftmost match of the lowercased `GoogleGenerativeAI(?:Error)?:\s*(\w+)`
pattern in a character list. -/

def typeMatchScan : List Char → Option String
  | [] => none
  | c :: rest =>
    match typeMatchAt (c :: rest) with
    | some r => some r
    | none => typeMatchScan rest

/-- Source `ModelDegradationManager.extractGeminiErrorCode`: an HTTP status code
match `<status>_<reason>` when parseable, else the lowercased error type,
else the literal `gemini_unknown`. -/

def extractGeminiErrorCode (message : String) : String :=
  match statusMatchScan message.data with
  | some (status, reason) => status ++ "_" ++ reason
  | none =>
    match typeMatchScan message.toLower.data with
    | some t => t
    | none => "gemini_unknown"

/-- Source `ModelDegradationManager.parseErrorFingerprint`: classify an exception
into an `ErrorFingerprint`. -/

def parseErrorFingerprint : JsError → ErrorFingerprint
  | .zodError message issues =>
    match issues with
    | [] => { type := .zod_validation, code := "unknown_zod_error", message := message }
    | firstIssue :: _ =>
      { type := .zod_validation
        code := firstIssue.code
        path := some (String.intercalate "." firstIssue.path)
        message := firstIssue.message }
  | .plain message =>
    if strContains message "GoogleGenerativeAI" || strContains message "gemini" then
      { type := .gemini_api, code := extractGeminiErrorCode message, message := message }
    else if strContains message "ECONNREFUSED" || strContains message "ETIMEDOUT" ||
        strContains message "network" || strContains message "fetch" then
      { type := .network, code := "network_error", message := message }
    else if strContains message "ENOENT" || strContains message "EACCES" ||
        strContains message "EPERM" then
      { type := .file_system, code := extractFsErrorCode message, message := message }
    else
      { type := .unknown, code := "unknown", message := message }

/-! ## Model hierarchy and the degrade decision -/

/-- Strictness level of a model configuration. -/

inductive Strictness
  | normal
  | strict
  deriving DecidableEq, Repr

/-- Source `ModelConfig` of the model-degradation service. -/

structure ModelConfig where
  name : String
  priority : Nat
  strictness : Strictness
  maxTokens : Nat
  deriving DecidableEq, Repr

/-- Source `MODEL_HIERARCHY` — the degradation fallback chain (four models). -/

def MODEL_HIERARCHY : List ModelConfig :=
  [ { name := "gemini-3-pro-preview", priority := 1, strictness := .normal, maxTokens := 8192 }
  , { name := "gemini-3-flash-preview", priority := 2, strictness := .normal, maxTokens := 4096 }
  , { name := "gemini-2.5-flash", priority := 3, strictness := .normal, maxTokens := 4096 }
  , { name := "gemini-1.5-flash", priority := 4, strictness := .strict, maxTokens := 2048 } ]

/-- Source `DEGRADABLE_ERROR_CODES` — Zod issue codes that degradation can fix. -/

def DEGRADABLE_ERROR_CODES : List String :=
  ["invalid_enum_value", "too_big", "invalid_type", "unrecognized_keys",
   "invalid_string", "invalid_literal"]

/-- The provider-API codes that must not trigger degradation
(rate-limit and auth errors), from `shouldDegrade`. -/

def nonDegradableCodes : List String := ["429", "401", "403", "quota", "unauthorized"]

/-! ## The manifest record (the fields the workflow operations touch) -/

/-- One entry of `meta.error_history` (`ErrorHistoryEntrySchema`). -/

structure ErrorHistoryEntry where
  timestamp : Nat
  error : String
  fingerprint : Option ErrorFingerprint
  stage : String
  model : Option String
  deriving DecidableEq, Repr

/-- The manifest's `error` field. -/

structure ErrorInfo where
  stage : String
  message : String
  retries : Nat
  last_retry_at : Nat
  fallback_model_used : Option String := none
  deriving DecidableEq, Repr

/-- The `meta` bag of a project manifest (the operational fields read or
written by the workflow manager and the degradation manager). -/

structure Meta where
  stale_recovery_count : Nat := 0
  model_used : String := "gemini-3-pro-preview"
  is_fallback_mode : Bool := false
  retry_count : Nat := 0
  error_fingerprint : Option ErrorFingerprint := none
  error_history : List ErrorHistoryEntry := []
  used_models : List String := []
  current_model : Option String := none
  is_degraded : Bool := false
  is_dead_letter : Bool := false
  deriving DecidableEq, Repr

/-- A project manifest (the durable per-project record), restricted to the
fields the state machine reads or writes. -/

structure Manifest where
  status : Status
  created_at : Nat
  updated_at : Nat
  meta : Meta
  error : Option ErrorInfo := none
  deriving DecidableEq, Repr

/-- Source `WorkflowManager.createProject`: the freshly created manifest
(status `pending`, default meta). -/

def createManifest (now : Nat) : Manifest :=
  { status := pending, created_at := now, updated_at := now, meta := {} }

/-- Source `ModelDegradationManager.shouldDegrade`: decide whether the error can
be resolved by degrading to a different model. -/

def shouldDegrade (fingerprint : ErrorFingerprint) (meta : Meta) : Bool :=
  if meta.used_models.length ≥ MODEL_HIERARCHY.length then false
  else
    match fingerprint.type with
    | .zod_validation => DEGRADABLE_ERROR_CODES.contains fingerprint.code
    | .gemini_api =>
      ! nonDegradableCodes.any (fun code => strContains fingerprint.code.toLower code)
    | _ => false

/-- Source `ModelDegradationManager.getNextModel`: the first model of the
hierarchy that is neither in `meta.used_models` nor the current model. -/

def getNextModel (meta : Meta) : Option ModelConfig :=
  let currentModel := meta.current_model.getD meta.model_used
  let usedModels :=
    if currentModel ≠ "" then currentModel :: meta.used_models else meta.used_models
  MODEL_HIERARCHY.find? (fun model => ! usedModels.contains model.name)

/-! ## Workflow operations

Each `WorkflowManager` method loads the persisted manifest, mutates it and
saves it (possibly several times, and possibly through nested calls that
re-load the just-saved manifest).  Every operation is modelled as a pure
function from the persisted manifest to the final persisted manifest
together with the ordered list of manifests written to disk along the way.
The recovery callback re-enters the pipeline driver; its own effects are
further operations of the same repertoire, so inside an operation only the
transition it performs before invoking the callback is modelled
(`callbackSet` states whether `onProjectRecovered` was registered, as it is
in the composition root). -/

/-- Source `MAX_RETRIES` of the workflow module. -/

def MAX_RETRIES : Nat := 3

/-- Source `MAX_STALE_RECOVERY_COUNT` of the workflow module. -/

def MAX_STALE_RECOVERY_COUNT : Nat := 3

/-- The typed error thrown by `transitionState` on a disallowed
transition (`Invalid state transition: current -> target`). -/

structure InvalidTransition where
  current : Status
  target : Status
  deriving DecidableEq, Repr

/-- Source `WorkflowManager.transitionState`: check the target against
`STATE_TRANSITIONS`, then set the status and stamp `updated_at`; on a
disallowed target throw, leaving the manifest as loaded. -/

def transitionState (m : Manifest) (target : Status) (now : Nat) :
    Except InvalidTransition Manifest :=
  if (STATE_TRANSITIONS m.status).contains target then
    .ok { m with status := target, updated_at := now }
  else
    .error { current := m.status, target := target }

/-- Source `WorkflowManager.moveToDeadLetter` restricted to its manifest effect:
set status `dead_letter` and `meta.is_dead_letter` (the dead-letter
snapshot file and the alert record are outside the manifest). -/

def moveToDeadLetter (m : Manifest) : Manifest :=
  { m with status := dead_letter, meta := { m.meta with is_dead_letter := true } }

/-- Source `WorkflowManager.attemptDegradedRetry`: pick the next unused model (or
dead-letter), append the current model to `meta.used_models`, switch
`meta.current_model`/`meta.model_used`, set the degradation flags, set
status `degraded_retry`, save, and (when the recovery callback is
registered) transition to `analyzing`.  Returns the final persisted
manifest and the manifests saved, in order. -/

def attemptDegradedRetry (m : Manifest) (now : Nat) (callbackSet : Bool) :
    Manifest × List Manifest :=
  match getNextModel m.meta with
  | none =>
    let m1 := moveToDeadLetter m
    (m1, [m1])
  | some nextModel =>
    let currentModel := m.meta.current_model.getD m.meta.model_used
    let usedModels :=
      if currentModel ≠ "" && ! m.meta.used_models.contains currentModel then
        m.meta.used_models ++ [currentModel]
      else m.meta.used_models
    let m1 := { m with
      status := degraded_retry
      meta := { m.meta with
        used_models := usedModels
        current_model := some nextModel.name
        model_used := nextModel.name
        is_degraded := nextModel.strictness = Strictness.strict
        is_fallback_mode := true } }
    if callbackSet then
      match transitionState m1 analyzing now with
      | .ok m2 => (m2, [m1, m2])
      | .error _ => (m1, [m1])
    else (m1, [m1])

/-- The bookkeeping prefix of `WorkflowManager.handleError`: classify the
error, append it to `meta.error_history`, set `meta.error_fingerprint` and
the manifest's `error` field. -/

def recordError (m : Manifest) (err : JsError) (stage : String) (now : Nat) : Manifest :=
  let fingerprint := parseErrorFingerprint err
  { m with
    meta := { m.meta with
      error_history := m.meta.error_history ++
        [{ timestamp := now
           error := err.message
           fingerprint := some fingerprint
           stage := stage
           model := some (m.meta.current_model.getD m.meta.model_used) }]
      error_fingerprint := some fingerprint }
    error := some
      { stage := stage
        message := err.message
        retries := m.meta.retry_count
        last_retry_at := now
        fallback_model_used := m.meta.current_model } }

/-- Source `WorkflowManager.handleError`: record the error, then either degrade
(when `shouldDegrade` says so), or increment `meta.retry_count` and move
to dead letter at `MAX_RETRIES` or set status `failed`. -/

def handleError (m : Manifest) (err : JsError) (stage : String) (now : Nat)
    (callbackSet : Bool) : Manifest × List Manifest :=
  let fingerprint := parseErrorFingerprint err
  let m1 := recordError m err stage now
  if shouldDegrade fingerprint m1.meta then
    let result := attemptDegradedRetry m1 now callbackSet
    (result.1, m1 :: result.2)
  else
    let m2 := { m1 with meta := { m1.meta with retry_count := m1.meta.retry_count + 1 } }
    if m2.meta.retry_count ≥ MAX_RETRIES then
      let m3 := moveToDeadLetter m2
      (m3, [m2, m3])
    else
      let m3 := { m2 with status := failed }
      (m3, [m3])

/-- Source `WorkflowManager.recoverStaleProject`: above the recovery cap record a
failure, otherwise set status `stale_recovered`, bump the counter, save,
and immediately transition to `pending`. -/

def recoverStaleProject (m : Manifest) (now : Nat) : Manifest × List Manifest :=
  if m.meta.stale_recovery_count ≥ MAX_STALE_RECOVERY_COUNT then
    let m1 := { m with
      status := failed
      updated_at := now
      error := some
        { stage := "failed"
          message := "Exceeded max stale recovery attempts"
          retries := m.meta.stale_recovery_count
          last_retry_at := now } }
    (m1, [m1])
  else
    let m1 := { m with
      status := stale_recovered
      updated_at := now
      meta := { m.meta with stale_recovery_count := m.meta.stale_recovery_count + 1 } }
    match transitionState m1 pending now with
    | .ok m2 => (m2, [m1, m2])
    | .error _ => (m1, [m1])

/-- One `WorkflowManager` operation applied to a project. -/

inductive Op
  | transition (target : Status) (now : Nat)
  | handleErr (err : JsError) (stage : String) (now : Nat) (callbackSet : Bool)
  | degradedRetry (now : Nat) (callbackSet : Bool)
  | deadLetter (reason : String) (now : Nat)
  | recoverStale (now : Nat)
  deriving DecidableEq, Repr

/-- Run one operation: final persisted manifest and the list of saves. -/

def runOp (m : Manifest) : Op → Manifest × List Manifest
  | .transition target now =>
    match transitionState m target now with
    | .ok m1 => (m1, [m1])
    | .error _ => (m, [])
  | .handleErr err stage now callbackSet => handleError m err stage now callbackSet
  | .degradedRetry now callbackSet => attemptDegradedRetry m now callbackSet
  | .deadLetter _ _ =>
    let m1 := moveToDeadLetter m
    (m1, [m1])
  | .recoverStale now => recoverStaleProject m now

/-- Run a sequence of operations: final persisted manifest and the
concatenated list of saves. -/

def exec (m : Manifest) : List Op → Manifest × List Manifest
  | [] => (m, [])
  | op :: ops =>
    let step := runOp m op
    let rest := exec step.1 ops
    (rest.1, step.2 ++ rest.2)

/-- The status transitions exhibited by a trace of persisted statuses:
consecutive pairs whose statuses differ. -/

def statusChanges : List Status → List (Status × Status)
  | a :: b :: rest =>
    (if a = b then [] else [(a, b)]) ++ statusChanges (b :: rest)
  | _ => []

/-- The persisted-status trace of running `ops` from `m` (the initial
persisted manifest followed by every save). -/

def statusTrace (m : Manifest) (ops : List Op) : List Status :=
  (m :: (exec m ops).2).map Manifest.status

/-! ## Helper lemmas about operation traces -/

/-- A status change is an edge of the table, or it was written by one of
the direct status assignments, whose targets are `failed`,
`stale_recovered`, `degraded_retry` and `dead_letter`. -/

def tableOrDirect (p : Status × Status) : Prop :=
  specAllowed p.1 p.2 = true ∨
    p.2 = failed ∨ p.2 = stale_recovered ∨ p.2 = degraded_retry ∨ p.2 = dead_letter

/-- Reachability of a persisted manifest by operations, each applied while
the project is not yet in the terminal `dead_letter` state. -/

inductive Reaches (m0 : Manifest) : Manifest → Prop
  | refl : Reaches m0 m0
  | step {m1 : Manifest} (op : Op) :
      Reaches m0 m1 → m1.status ≠ dead_letter → Reaches m0 (runOp m1 op).1

/-- A Zod invalid-enum-value error, as produced by schema validation of a
bad `visual_hint` (spec scenario 3). -/

def invalidEnumError : JsError :=
  JsError.zodError "validation failed"
    [{ code := "invalid_enum_value", path := ["script", "0", "visual_hint"],
       message := "Invalid enum value" }]

/-- The operation sequence refuting the unconditional retry bound: three
plain failures dead-letter the project at `retry_count = 3`; a degradable
validation error then pulls it out of `dead_letter`; a fourth plain
failure raises `retry_count` to 4 and dead-letters again; a second
degradable error pulls it out once more. -/

def retryPumpOps : List Op :=
  [ Op.handleErr (JsError.plain "kaboom") "analyzing" 1 true
  , Op.handleErr (JsError.plain "kaboom") "analyzing" 2 true
  , Op.handleErr (JsError.plain "kaboom") "analyzing" 3 true
  , Op.handleErr invalidEnumError "analyzing" 4 true
  , Op.handleErr (JsError.plain "kaboom") "analyzing" 5 true
  , Op.handleErr invalidEnumError "analyzing" 6 true ]

/-! ## Priority queue (C2 of the spec; claim C8) -/

/-- The three priority levels. -/

inductive Priority
  | high
  | medium
  | low
  deriving DecidableEq, Repr

/-- Source `PRIORITY_WEIGHTS`: lower weight = higher priority. -/

def PRIORITY_WEIGHTS : Priority → Nat
  | .high => 0
  | .medium => 1
  | .low => 2

/-- Source `PriorityQueueConfig` with the source's defaults. -/

structure PriorityQueueConfig where
  maxConcurrent : Nat := 5
  maxQueueSize : Nat := 100
  dropLowestOnFull : Bool := true
  deriving DecidableEq, Repr

/-- The queue's mutable state: the sorted waiting queue (by priority, FIFO
within a level) and the in-flight count.  Waiters are identified by their
priority; resolve/reject callbacks carry no further state relevant to the
claims. -/

structure PQState where
  queue : List Priority
  processing : Nat
  deriving DecidableEq, Repr

/-- Result of `PriorityQueue.enqueue`:
* `admitted` — in-flight below the cap, admitted immediately;
* `waiting s dropped` — inserted into the waiting queue (after rejecting
  the last waiter with a `QueueFullError` when `dropped` is true);
* `rejectedIncoming` — a `QueueFullError` is thrown to the caller and the
  state is unchanged. -/

inductive EnqueueResult
  | admitted (s : PQState)
  | waiting (s : PQState) (droppedLast : Bool)
  | rejectedIncoming (s : PQState)
  deriving DecidableEq, Repr

/-- The sorted insert of `enqueue`: before the first waiter of strictly
greater weight (strictly lower priority), else at the tail. -/

def insertByPriority (queue : List Priority) (p : Priority) : List Priority :=
  match queue.findIdx? (fun existing => PRIORITY_WEIGHTS existing > PRIORITY_WEIGHTS p) with
  | none => queue ++ [p]
  | some i => queue.take i ++ p :: queue.drop i

/-- Source `PriorityQueue.dropLowestPriority`: drop the last waiter when the
incoming priority is strictly higher; returns whether a waiter was
dropped, and the new state. -/

def dropLowestPriority (state : PQState) (incomingPriority : Priority) : Bool × PQState :=
  match state.queue.getLast? with
  | none => (false, state)
  | some lastItem =>
    if PRIORITY_WEIGHTS incomingPriority < PRIORITY_WEIGHTS lastItem then
      (true, { state with queue := state.queue.dropLast })
    else
      (false, state)

/-- Source `PriorityQueue.enqueue`. -/

def enqueue (config : PriorityQueueConfig) (state : PQState) (priority : Priority) :
    EnqueueResult :=
  if state.processing < config.maxConcurrent then
    .admitted { state with processing := state.processing + 1 }
  else if config.maxQueueSize > 0 && state.queue.length ≥ config.maxQueueSize then
    if config.dropLowestOnFull then
      match dropLowestPriority state priority with
      | (true, s1) => .waiting { s1 with queue := insertByPriority s1.queue priority } true
      | (false, _) => .rejectedIncoming state
    else
      .rejectedIncoming state
  else
    .waiting { state with queue := insertByPriority state.queue priority } false

/-! ## Gemini client fallback loop (claim C6) -/

/-- Source `MODEL_FALLBACK_CHAIN` of the Gemini client (environment defaults). -/

def MODEL_FALLBACK_CHAIN : List String :=
  ["gemini-3-pro-preview", "gemini-3-flash-preview", "gemini-2.5-flash"]

/-- Source `GenerateOptions` of `GeminiClient.generate`. -/

structure GenerateOptions where
  projectId : String
  priority : Option Priority := none
  maxRetries : Option Nat := none
  preferredModel : Option String := none
  deriving DecidableEq, Repr

/-- Source `GenerateResult` of `GeminiClient.generate`. -/

structure GenerateResult where
  text : String
  modelUsed : String
  isFallbackMode : Bool
  tokensUsed : Nat
  deriving DecidableEq, Repr

/-- Source `simplifyPromptForFallback`: the simplification header prepended in
fallback mode. -/

def simplifyPromptForFallback (prompt : String) : String :=
  "\nIMPORTANT: Please respond in a clear, straightforward manner.\n- Use simple, direct language\n- Follow the JSON format exactly as specified\n- Do not use metaphors or abstract descriptions\n- If unsure, provide your best attempt rather than asking for clarification\n\n"
    ++ prompt

/-- Source `withRetry` of the retry utility, from attempt number `attempt` with
`fuel` attempts remaining (`fuel = maxRetries - attempt + 1`): return the
first success, rethrow the error of attempt `maxRetries`.  The provider
call of each attempt is the oracle `fn`. -/

def withRetryFrom (fn : Nat → Except String (String × Nat)) :
    Nat → Nat → Except String (String × Nat)
  | _, 0 => .error "Retry loop exhausted unexpectedly"
  | attempt, fuel + 1 =>
    match fn attempt with
    | .ok a => .ok a
    | .error e =>
      if fuel = 0 then .error e
      else withRetryFrom fn (attempt + 1) fuel

/-- Source `withRetry(fn, {maxRetries})`. -/

def withRetry (fn : Nat → Except String (String × Nat)) (maxRetries : Nat) :
    Except String (String × Nat) :=
  withRetryFrom fn 1 maxRetries

/-- The loop body of `generateWithFallback` over the indexed tail of the
fallback chain.  `available` models the `this.models` map (a missing model
is skipped), and `callResult model prompt attempt` is the outcome of
`callGemini` on that attempt (text already stripped of code fences, and
the token count).  Returns the models actually attempted, in order, and
the overall outcome. -/

def fallbackLoopAux (available : String → Bool)
    (callResult : String → String → Nat → Except String (String × Nat))
    (originalPrompt : String) (retriesPerModel : Nat) :
    List (Nat × String) → List String × Except String GenerateResult
  | [] => ([], .error "Unexpected: fallback chain exhausted")
  | (modelIdx, modelName) :: rest =>
    if available modelName then
      let isFallbackMode := modelIdx > 0
      let prompt := if isFallbackMode then simplifyPromptForFallback originalPrompt
        else originalPrompt
      match withRetry (callResult modelName prompt) retriesPerModel with
      | .ok (text, tokensUsed) =>
        ([modelName],
          .ok { text := text, modelUsed := modelName, isFallbackMode := isFallbackMode,
                tokensUsed := tokensUsed })
      | .error e =>
        if rest.isEmpty then
          ([modelName], .error ("All models failed. Last error: " ++ e))
        else
          let r := fallbackLoopAux available callResult originalPrompt retriesPerModel rest
          (modelName :: r.1, r.2)
    else
      fallbackLoopAux available callResult originalPrompt retriesPerModel rest

/-- Source `GeminiClient.generateWithFallback`: iterate the fallback chain from
index 0. -/

def generateWithFallback (available : String → Bool)
    (callResult : String → String → Nat → Except String (String × Nat))
    (originalPrompt : String) (retriesPerModel : Nat) :
    List String × Except String GenerateResult :=
  fallbackLoopAux available callResult originalPrompt retriesPerModel
    (MODEL_FALLBACK_CHAIN.enum)

/-- Source `GeminiClient.generate` (non-mock path, after the priority-queue and
rate-limiter suspensions, which do not affect the model loop): the
destructuring reads only `projectId`, `priority` (default `medium`) and
`maxRetries` (default 3) from the options — `preferredModel` is never
read — and calls `generateWithFallback`. -/

def generate (prompt : String) (options : GenerateOptions)
    (available : String → Bool)
    (callResult : String → String → Nat → Except String (String × Nat)) :
    List String × Except String GenerateResult :=
  let maxRetries := options.maxRetries.getD 3
  generateWithFallback available callResult prompt maxRetries

/-! ## Ingress watcher (claim C7) -/

/-- JavaScript `toLowerCase` on an ASCII character (the watcher lowercases
paths only to test ASCII extensions). -/

def charToLower (c : Char) : Char :=
  if 'A' ≤ c ∧ c ≤ 'Z' then Char.ofNat (c.toNat + 32) else c

/-- Source `String.prototype.toLowerCase`, restricted to the ASCII range. -/

def strToLower (s : String) : String :=
  String.mk (s.data.map charToLower)

/-- Source `String.prototype.endsWith`. -/

def strEndsWith (s suffix : String) : Bool :=
  suffix.data.reverse.isPrefixOf s.data.reverse

/-- Source `path.basename`: the last path component. -/

def basename (p : String) : String :=
  (p.splitOn "/").getLastD p

/-- Detected language of the input document. -/

inductive Lang
  | en
  | zh
  deriving DecidableEq, Repr

/-- Is `c` a Han character of the `[一-龥]` class used by the
watcher? -/

def isHanChar (c : Char) : Bool :=
  0x4e00 ≤ c.toNat && c.toNat ≤ 0x9fa5

/-- Source `FolderWatcher.detectLanguage`: `zh` when the Han-character ratio
exceeds 30% (the float ratio is modelled as the exact rational
comparison; an empty document compares `NaN > 0.3 = false` in JS and
`0 > 0` here, giving `en` either way). -/

def detectLanguage (content : String) : Lang :=
  let chineseChars := content.data.filter isHanChar
  if 10 * chineseChars.length > 3 * content.data.length then .zh else .en

/-- Number of  maximal runs of non-whitespace characters: the length of
`content.split(/\s+/).filter(Boolean)`. -/

def tokenRunCount : List Char → Bool → Nat
  | [], _ => 0
  | c :: rest, inWord =>
    if isWsChar c then tokenRunCount rest false
    else (if inWord then 0 else 1) + tokenRunCount rest true

/-- Source `FolderWatcher.countWords`: Han characters for `zh`, whitespace-split
tokens for `en`. -/

def countWords (content : String) : Lang → Nat
  | .zh => (content.data.filter isHanChar).length
  | .en => tokenRunCount content.data false

/-- Source `FolderWatcher.calculateReadingTime`: `Math.ceil(wordCount / wpm)` at
200 wpm for `en` and 300 cpm for `zh`. -/

def calculateReadingTime (wordCount : Nat) (language : Lang) : Nat :=
  let wpm := match language with
    | .en => 200
    | .zh => 300
  (wordCount + wpm - 1) / wpm

/-- The metadata dispatched by the watcher. -/

structure FileMetadata where
  path : String
  content : String
  wordCount : Nat
  estimatedReadingTimeMinutes : Nat
  detectedLanguage : Lang
  deriving DecidableEq, Repr

/-- Source `FolderWatcher.analyzeContent`. -/

def analyzeContent (path : String) (content : String) : FileMetadata :=
  let detectedLanguage := detectLanguage content
  let wordCount := countWords content detectedLanguage
  { path := path
    content := content
    wordCount := wordCount
    estimatedReadingTimeMinutes := calculateReadingTime wordCount detectedLanguage
    detectedLanguage := detectedLanguage }

/-- Source `WatcherConfig`. -/

structure WatcherConfig where
  incomingDir : String
  processedDir : String
  stabilityDelayMs : Nat
  deriving DecidableEq, Repr

/-- The observable effects of one `handleFileAdd` run, in order. -/

inductive WatchEffect
  | readFile (path : String)
  | moveFile (src dst : String)
  | dispatchReady (metadata : FileMetadata)
  | reportError (path : String)
  deriving DecidableEq, Repr

/-- Where the input file sits when `handleFileAdd` returns. -/

inductive FileLocation
  | incoming
  | processed
  deriving DecidableEq, Repr

/-- Source `FolderWatcher.handleFileAdd` (the live copy, which moves the file to
the processed directory and updates `metadata.path` *before* dispatching
`onFileReady`): extension allowlist, read, analyze, move, dispatch;
a handler exception is reported via `onError` and does not move the file
back.  `readResult` models the outcome of `readFile`, and
`handlerThrows` whether `onFileReady` throws on the given metadata. -/

def handleFileAdd (config : WatcherConfig) (filePath : String)
    (readResult : Except String String) (handlerThrows : FileMetadata → Bool) :
    List WatchEffect × FileLocation :=
  let ext := strToLower filePath
  if !(strEndsWith ext ".md") && !(strEndsWith ext ".txt") &&
      !(strEndsWith ext ".markdown") then
    ([], .incoming)
  else
    match readResult with
    | .error _ => ([.readFile filePath, .reportError filePath], .incoming)
    | .ok content =>
      let newPath := config.processedDir ++ "/" ++ basename filePath
      let metadata := { analyzeContent filePath content with path := newPath }
      if handlerThrows metadata then
        ([.readFile filePath, .moveFile filePath newPath, .dispatchReady metadata,
          .reportError filePath], .processed)
      else
        ([.readFile filePath, .moveFile filePath newPath, .dispatchReady metadata],
          .processed)

/-! ## Token-bucket rate limiter (claim C9) -/

/-- Source `TokenBucketConfig`: the full configuration surface of the token
bucket — maximum tokens and refill rate per second only. -/

structure TokenBucketConfig where
  maxTokens : ℚ
  refillRate : ℚ
  deriving DecidableEq, Repr

/-- The bucket's mutable state. -/

structure BucketState where
  tokens : ℚ
  lastRefillTime : ℚ
  deriving DecidableEq, Repr

/-- Source `TokenBucket.refill` at wall-clock time `now` (milliseconds). -/

def refill (config : TokenBucketConfig) (s : BucketState) (now : ℚ) : BucketState :=
  let elapsed := (now - s.lastRefillTime) / 1000
  { tokens := min config.maxTokens (s.tokens + elapsed * config.refillRate)
    lastRefillTime := now }

/-- Outcome of `TokenBucket.acquire`: either an immediate deduction, or a
single timed wait (of `waitMs` milliseconds) followed by the deduction. -/

inductive AcquireOutcome
  | immediate (s : BucketState)
  | waited (waitMs : ℚ) (s : BucketState)
  deriving DecidableEq, Repr

/-- Source `TokenBucket.acquire` at time `now`, with the `setTimeout` sleep
modelled as the clock advancing by exactly the computed wait. -/

def acquire (config : TokenBucketConfig) (s : BucketState) (now : ℚ) : AcquireOutcome :=
  let s1 := refill config s now
  if 1 ≤ s1.tokens then
    .immediate { s1 with tokens := s1.tokens - 1 }
  else
    let waitMs := (1 - s1.tokens) / config.refillRate * 1000
    let s2 := refill config s1 (now + waitMs)
    .waited waitMs { s2 with tokens := s2.tokens - 1 }

/-! ## Trend authority store (claim C10) -/

/-- Source `CACHE_TTL_HOURS` of the trends hook. -/

def CACHE_TTL_HOURS : ℚ := 6

/-- Source `DECAY_THRESHOLD_HOURS` of the trends hook. -/

def DECAY_THRESHOLD_HOURS : ℚ := 24

/-- A persisted `TrendCacheEntry` (times in epoch milliseconds). -/

structure TrendCacheEntry where
  keyword : String
  firstSeen : ℚ
  lastSeen : ℚ
  consecutiveWindows : Nat
  deriving DecidableEq, Repr

/-- Derived trend authority. -/

inductive Authority
  | fleeting
  | emerging
  | established
  deriving DecidableEq, Repr

/-- The `TrendKeyword` record returned to callers. -/

structure TrendKeyword where
  keyword : String
  authority : Authority
  consecutive_windows : Nat
  first_seen : ℚ
  last_seen : ℚ
  decay_risk : Bool
  deriving DecidableEq, Repr

/-- Source `TrendsHook.calculateAuthority`. -/

def calculateAuthority (windows : Nat) : Authority :=
  if windows ≥ 3 then .established
  else if windows ≥ 2 then .emerging
  else .fleeting

/-- Source `Map.set` on the association-list model of the trends cache. -/

def setEntry (cache : List (String × TrendCacheEntry)) (k : String)
    (e : TrendCacheEntry) : List (String × TrendCacheEntry) :=
  if (cache.lookup k).isSome then
    cache.map (fun kv => if kv.1 = k then (k, e) else kv)
  else
    cache ++ [(k, e)]

/-- Source `TrendsHook.enrichWithAuthority`: for an existing entry, bump
`consecutiveWindows` after the refresh window, overwrite `lastSeen` with
`now`, and only then compute the elapsed hours driving `decay_risk`; for
a new keyword create a fresh entry.  Returns the `TrendKeyword` and the
updated cache. -/

def enrichWithAuthority (cache : List (String × TrendCacheEntry)) (keyword : String)
    (now : ℚ) : TrendKeyword × List (String × TrendCacheEntry) :=
  match cache.lookup keyword with
  | some existing =>
    let hoursSinceLastUpdate := (now - existing.lastSeen) / (1000 * 60 * 60)
    let bumped :=
      if hoursSinceLastUpdate ≥ CACHE_TTL_HOURS then existing.consecutiveWindows + 1
      else existing.consecutiveWindows
    let updated := { existing with consecutiveWindows := bumped, lastSeen := now }
    let hoursSinceLastSeen := (now - updated.lastSeen) / (1000 * 60 * 60)
    ({ keyword := keyword
       authority := calculateAuthority updated.consecutiveWindows
       consecutive_windows := updated.consecutiveWindows
       first_seen := updated.firstSeen
       last_seen := updated.lastSeen
       decay_risk := decide (hoursSinceLastSeen > DECAY_THRESHOLD_HOURS / 2) },
     setEntry cache keyword updated)
  | none =>
    let entry : TrendCacheEntry :=
      { keyword := keyword, firstSeen := now, lastSeen := now, consecutiveWindows := 1 }
    ({ keyword := keyword
       authority := .fleeting
       consecutive_windows := 1
       first_seen := now
       last_seen := now
       decay_risk := false },
     setEntry cache keyword entry)

/-- A concrete watcher configuration for the C7 witness. -/

def watcherCfg : WatcherConfig :=
  { incomingDir := "incoming", processedDir := "processed", stabilityDelayMs := 2000 }

/-- A trend entry last seen at epoch 0, for the C10 witness. -/

def staleAiEntry : TrendCacheEntry :=
  { keyword := "ai", firstSeen := 0, lastSeen := 0, consecutiveWindows := 2 }

/-! ## Theorems -/

/-- The code's transition table agrees pointwise with the spec's table. -/
theorem stateTransitions_eq_specAllowed (s t : Status) :
    (STATE_TRANSITIONS s).contains t = specAllowed s t := by
  cases s <;> cases t <;> rfl

theorem statusChanges_cons_append (a : Status) (l₁ l₂ : List Status) :
    statusChanges (a :: (l₁ ++ l₂)) =
      statusChanges (a :: l₁) ++ statusChanges (l₁.getLastD a :: l₂) := by
  induction l₁ generalizing a with
  | nil => simp [statusChanges]
  | cons b l ih =>
    simp only [List.cons_append, statusChanges, List.getLastD_cons,
      List.append_assoc, List.append_eq, ih b]

theorem getLastD_map_status (l : List Manifest) (m : Manifest) :
    (l.map Manifest.status).getLastD m.status = (l.getLastD m).status := by
  induction l generalizing m with
  | nil => rfl
  | cons b l ih => simp only [List.map_cons, List.getLastD_cons, ih]

theorem attemptDegradedRetry_final_getLastD (m : Manifest) (now : Nat)
    (callbackSet : Bool) (x : Manifest) :
    (attemptDegradedRetry m now callbackSet).2.getLastD x =
      (attemptDegradedRetry m now callbackSet).1 := by
  unfold attemptDegradedRetry
  cases getNextModel m.meta with
  | none => rfl
  | some nextModel =>
    simp only []
    split
    · split <;> rfl
    · rfl

theorem handleError_final_getLastD (m : Manifest) (err : JsError) (stage : String)
    (now : Nat) (callbackSet : Bool) (x : Manifest) :
    (handleError m err stage now callbackSet).2.getLastD x =
      (handleError m err stage now callbackSet).1 := by
  unfold handleError
  dsimp only
  split
  · simp only [List.getLastD_cons]
    exact attemptDegradedRetry_final_getLastD _ now callbackSet _
  · split <;> rfl

theorem recoverStaleProject_final_getLastD (m : Manifest) (now : Nat) (x : Manifest) :
    (recoverStaleProject m now).2.getLastD x = (recoverStaleProject m now).1 := by
  unfold recoverStaleProject
  split
  · rfl
  · rfl

/-- The final manifest of an operation is the last save (or the input when
nothing was saved). -/
theorem runOp_final_getLastD (m : Manifest) (op : Op) :
    (runOp m op).2.getLastD m = (runOp m op).1 := by
  cases op with
  | transition target now =>
    simp only [runOp]
    cases transitionState m target now <;> rfl
  | handleErr err stage now callbackSet => exact handleError_final_getLastD m err stage now callbackSet m
  | degradedRetry now callbackSet => exact attemptDegradedRetry_final_getLastD m now callbackSet m
  | deadLetter reason now => rfl
  | recoverStale now => exact recoverStaleProject_final_getLastD m now m

theorem statusChanges_single (a : Status) : statusChanges [a] = [] := rfl

theorem statusChanges_pair (a b : Status) :
    statusChanges [a, b] = if a = b then [] else [(a, b)] := by
  simp [statusChanges]

theorem statusChanges_triple (a b c : Status) :
    statusChanges [a, b, c] =
      (if a = b then [] else [(a, b)]) ++ (if b = c then [] else [(b, c)]) := by
  simp [statusChanges]

theorem statusChanges_cons_self (a : Status) (l : List Status) :
    statusChanges (a :: a :: l) = statusChanges (a :: l) := by
  simp [statusChanges]

theorem attemptDegradedRetry_statusChanges (m : Manifest) (now : Nat) (cb : Bool) :
    ∀ p ∈ statusChanges ((m :: (attemptDegradedRetry m now cb).2).map Manifest.status),
      tableOrDirect p := by
  intro p hp
  unfold attemptDegradedRetry at hp
  cases hnext : getNextModel m.meta with
  | none =>
    rw [hnext] at hp
    simp only [List.map_cons, List.map_nil, moveToDeadLetter] at hp
    rw [statusChanges_pair] at hp
    split at hp
    · simp at hp
    · simp only [List.mem_singleton] at hp
      subst hp
      right; right; right; right; rfl
  | some nextModel =>
    rw [hnext] at hp
    dsimp only at hp
    split at hp
    · -- callback registered: degraded_retry then analyzing
      simp only [transitionState, STATE_TRANSITIONS] at hp
      simp only [List.map_cons, List.map_nil, List.contains_cons, List.elem_cons,
        beq_self_eq_true, Bool.true_or, Bool.or_true, if_true, reduceIte] at hp
      rw [statusChanges_triple] at hp
      rcases List.mem_append.mp hp with h | h
      · split at h
        · simp at h
        · simp only [List.mem_singleton] at h
          subst h
          right; right; right; left; rfl
      · split at h
        · simp at h
        · simp only [List.mem_singleton] at h
          subst h
          left; rfl
    · -- no callback: degraded_retry only
      simp only [List.map_cons, List.map_nil] at hp
      rw [statusChanges_pair] at hp
      split at hp
      · simp at hp
      · simp only [List.mem_singleton] at hp
        subst hp
        right; right; right; left; rfl

theorem handleError_statusChanges (m : Manifest) (err : JsError) (stage : String)
    (now : Nat) (cb : Bool) :
    ∀ p ∈ statusChanges ((m :: (handleError m err stage now cb).2).map Manifest.status),
      tableOrDirect p := by
  intro p hp
  unfold handleError at hp
  dsimp only at hp
  have hst : (recordError m err stage now).status = m.status := rfl
  split at hp
  · -- degrade path: the first save keeps the status, the rest is the
    -- degraded-retry trace of the recorded manifest
    simp only [List.map_cons, hst] at hp
    rw [statusChanges_cons_self] at hp
    have := attemptDegradedRetry_statusChanges (recordError m err stage now) now cb p
    simp only [List.map_cons, hst] at this
    exact this hp
  · split at hp
    · -- retry cap reached: saves keep the status, then dead letter
      simp only [List.map_cons, List.map_nil, moveToDeadLetter, hst] at hp
      rw [statusChanges_cons_self, statusChanges_pair] at hp
      split at hp
      · simp at hp
      · simp only [List.mem_singleton] at hp
        subst hp
        right; right; right; right; rfl
    · -- below the cap: status failed
      simp only [List.map_cons, List.map_nil] at hp
      rw [statusChanges_pair] at hp
      split at hp
      · simp at hp
      · simp only [List.mem_singleton] at hp
        subst hp
        right; left; rfl

theorem recoverStaleProject_statusChanges (m : Manifest) (now : Nat) :
    ∀ p ∈ statusChanges ((m :: (recoverStaleProject m now).2).map Manifest.status),
      tableOrDirect p := by
  intro p hp
  unfold recoverStaleProject at hp
  dsimp only at hp
  split at hp
  · -- recovery cap exceeded: status failed
    simp only [List.map_cons, List.map_nil] at hp
    rw [statusChanges_pair] at hp
    split at hp
    · simp at hp
    · simp only [List.mem_singleton] at hp
      subst hp
      right; left; rfl
  · -- stale_recovered, then the checked transition to pending
    simp only [transitionState, STATE_TRANSITIONS] at hp
    simp only [List.map_cons, List.map_nil, List.contains_cons, List.elem_cons,
      beq_self_eq_true, Bool.true_or, Bool.or_true, if_true, reduceIte] at hp
    rw [statusChanges_triple] at hp
    rcases List.mem_append.mp hp with h | h
    · split at h
      · simp at h
      · simp only [List.mem_singleton] at h
        subst h
        right; right; left; rfl
    · split at h
      · simp at h
      · simp only [List.mem_singleton] at h
        subst h
        left; rfl

theorem runOp_statusChanges (m : Manifest) (op : Op) :
    ∀ p ∈ statusChanges ((m :: (runOp m op).2).map Manifest.status), tableOrDirect p := by
  intro p hp
  cases op with
  | transition target now =>
    by_cases hallow : (STATE_TRANSITIONS m.status).contains target = true
    · simp only [runOp, transitionState, hallow, if_true] at hp
      simp only [List.map_cons, List.map_nil] at hp
      rw [statusChanges_pair] at hp
      split at hp
      · simp at hp
      · simp only [List.mem_singleton] at hp
        subst hp
        left
        rw [← stateTransitions_eq_specAllowed]
        exact hallow
    · simp only [runOp, transitionState, hallow, if_false,
        Bool.not_eq_true] at hp
      rw [if_neg (by simp [hallow])] at hp
      simp [statusChanges_single] at hp
  | handleErr err stage now cb => exact handleError_statusChanges m err stage now cb p hp
  | degradedRetry now cb => exact attemptDegradedRetry_statusChanges m now cb p hp
  | deadLetter reason now =>
    simp only [runOp, moveToDeadLetter, List.map_cons, List.map_nil] at hp
    rw [statusChanges_pair] at hp
    split at hp
    · simp at hp
    · simp only [List.mem_singleton] at hp
      subst hp
      right; right; right; right; rfl
  | recoverStale now => exact recoverStaleProject_statusChanges m now p hp

theorem attemptDegradedRetry_retry (m : Manifest) (now : Nat) (cb : Bool) :
    (attemptDegradedRetry m now cb).1.meta.retry_count = m.meta.retry_count ∧
    ∀ s ∈ (attemptDegradedRetry m now cb).2,
      s.meta.retry_count = m.meta.retry_count := by
  unfold attemptDegradedRetry
  cases getNextModel m.meta with
  | none =>
    refine ⟨rfl, ?_⟩
    intro s hs
    simp only [List.mem_singleton] at hs
    subst hs
    rfl
  | some nm =>
    dsimp only
    split
    · simp only [transitionState, STATE_TRANSITIONS, List.contains_cons, List.elem_cons,
        beq_self_eq_true, Bool.true_or, Bool.or_true, if_true, reduceIte]
      refine ⟨trivial, ?_⟩
      intro s hs
      simp only [List.mem_cons, List.mem_singleton, List.not_mem_nil, or_false] at hs
      rcases hs with h | h <;> (subst h; rfl)
    · refine ⟨rfl, ?_⟩
      intro s hs
      simp only [List.mem_singleton] at hs
      subst hs
      rfl

theorem recoverStaleProject_retry (m : Manifest) (now : Nat) :
    (recoverStaleProject m now).1.meta.retry_count = m.meta.retry_count ∧
    ∀ s ∈ (recoverStaleProject m now).2,
      s.meta.retry_count = m.meta.retry_count := by
  unfold recoverStaleProject
  dsimp only
  split
  · refine ⟨rfl, ?_⟩
    intro s hs
    simp only [List.mem_singleton] at hs
    subst hs
    rfl
  · simp only [transitionState, STATE_TRANSITIONS, List.contains_cons, List.elem_cons,
      beq_self_eq_true, Bool.true_or, Bool.or_true, if_true, reduceIte]
    refine ⟨trivial, ?_⟩
    intro s hs
    simp only [List.mem_cons, List.mem_singleton, List.not_mem_nil, or_false] at hs
    rcases hs with h | h <;> (subst h; rfl)

/-- Per-operation preservation of the retry bound: from a manifest with
`retry_count` strictly below `MAX_RETRIES` and not yet dead-lettered,
every save satisfies the bound and the final manifest is dead-lettered or
strictly below the bound again. -/
theorem runOp_retry_preserved (m : Manifest) (op : Op)
    (hm : m.meta.retry_count + 1 ≤ MAX_RETRIES) :
    ((runOp m op).1.status = dead_letter ∨
      (runOp m op).1.meta.retry_count + 1 ≤ MAX_RETRIES) ∧
    ∀ s ∈ (runOp m op).2,
      s.meta.retry_count ≤ MAX_RETRIES ∨ s.status = dead_letter := by
  cases op with
  | transition target now =>
    by_cases hallow : (STATE_TRANSITIONS m.status).contains target = true
    · simp only [runOp, transitionState, hallow, if_true]
      refine ⟨Or.inr hm, ?_⟩
      intro s hs
      simp only [List.mem_singleton] at hs
      subst hs
      exact Or.inl (Nat.le_of_succ_le hm)
    · simp only [runOp, transitionState, hallow, Bool.not_eq_true]
      rw [if_neg (by simp [hallow])]
      exact ⟨Or.inr hm, by intro s hs; simp at hs⟩
  | handleErr err stage now cb =>
    have hrec : (recordError m err stage now).meta.retry_count = m.meta.retry_count := rfl
    simp only [runOp, handleError]
    split
    · obtain ⟨h1, h2⟩ := attemptDegradedRetry_retry (recordError m err stage now) now cb
      constructor
      · right
        rw [h1, hrec]
        exact hm
      · intro s hs
        simp only [List.mem_cons] at hs
        rcases hs with h | h
        · subst h
          exact Or.inl (hrec.le.trans (Nat.le_of_succ_le hm))
        · left
          rw [h2 s h, hrec]
          exact Nat.le_of_succ_le hm
    · split
      next hge =>
        constructor
        · left
          rfl
        · intro s hs
          simp only [List.mem_cons, List.mem_singleton, List.not_mem_nil, or_false] at hs
          rcases hs with h | h

          · subst h
            exact Or.inl hm
          · subst h
            exact Or.inr rfl
      next hlt =>
        constructor
        · right
          have hlt2 : (recordError m err stage now).meta.retry_count + 1 < MAX_RETRIES :=
            Nat.lt_of_not_le hlt
          show (recordError m err stage now).meta.retry_count + 1 + 1 ≤ MAX_RETRIES
          omega
        · intro s hs
          simp only [List.mem_singleton] at hs
          subst hs
          exact Or.inl hm
  | degradedRetry now cb =>
    obtain ⟨h1, h2⟩ := attemptDegradedRetry_retry m now cb
    refine ⟨Or.inr ?_, ?_⟩
    · simp only [runOp, h1]
      exact hm
    · intro s hs
      left
      rw [h2 s hs]
      exact Nat.le_of_succ_le hm
  | deadLetter reason now =>
    refine ⟨Or.inl rfl, ?_⟩
    intro s hs
    simp only [runOp, List.mem_singleton] at hs
    subst hs
    exact Or.inr rfl
  | recoverStale now =>
    obtain ⟨h1, h2⟩ := recoverStaleProject_retry m now
    refine ⟨Or.inr ?_, ?_⟩
    · simp only [runOp, h1]
      exact hm
    · intro s hs
      left
      rw [h2 s hs]
      exact Nat.le_of_succ_le hm

theorem reaches_retry_strong (now0 : Nat) (m1 : Manifest)
    (h : Reaches (createManifest now0) m1) :
    m1.status = dead_letter ∨ m1.meta.retry_count + 1 ≤ MAX_RETRIES := by
  induction h with
  | refl => exact Or.inr ((by decide : (1:Nat) ≤ 3))
  | step op hr hnd ih =>
    rcases ih with hdl | hlt
    · exact absurd hdl hnd
    · exact (runOp_retry_preserved _ op hlt).1

theorem exec_statusChanges (ops : List Op) : ∀ m : Manifest,
    ∀ p ∈ statusChanges (statusTrace m ops), tableOrDirect p := by
  induction ops with
  | nil =>
    intro m p hp
    simp only [statusTrace, exec, List.map_cons, List.map_nil, statusChanges_single] at hp
    simp at hp
  | cons op ops ih =>
    intro m p hp
    rw [statusTrace] at hp
    simp only [exec, List.map_cons, List.map_append] at hp
    rw [statusChanges_cons_append] at hp
    rcases List.mem_append.mp hp with h | h
    · have := runOp_statusChanges m op p
      simp only [List.map_cons] at this
      exact this h
    · rw [getLastD_map_status, runOp_final_getLastD] at h
      have := ih (runOp m op).1 p
      simp only [statusTrace, exec, List.map_cons] at this
      exact this h

theorem handleError_no_degrade (m : Manifest) (err : JsError) (stage : String)
    (now : Nat) (cb : Bool)
    (hdeg : shouldDegrade (parseErrorFingerprint err) m.meta = false) :
    (handleError m err stage now cb).1.meta.retry_count = m.meta.retry_count + 1 ∧
    ((m.meta.retry_count + 1 ≥ MAX_RETRIES ∧
        (handleError m err stage now cb).1.status = dead_letter) ∨
      (m.meta.retry_count + 1 < MAX_RETRIES ∧
        (handleError m err stage now cb).1.status = failed)) := by
  have hdeg2 : shouldDegrade (parseErrorFingerprint err) (recordError m err stage now).meta
      = false := hdeg
  simp only [handleError, hdeg2, Bool.false_eq_true, if_false]
  by_cases hge : (recordError m err stage now).meta.retry_count + 1 ≥ MAX_RETRIES
  · rw [if_pos hge]
    exact ⟨rfl, Or.inl ⟨hge, rfl⟩⟩
  · rw [if_neg hge]
    exact ⟨rfl, Or.inr ⟨Nat.lt_of_not_le hge, rfl⟩⟩

/-- C1: For every manifest and target status, `transitionState` succeeds —
setting the status to the target and stamping `updated_at` — exactly when
the target is in the allowed set of the current status given by the
spec's transition table; otherwise it throws the typed
`InvalidTransition` error and saves nothing, so the persisted manifest is
unchanged. -/
theorem C1_transitionState_follows_table (m : Manifest) (target : Status) (now : Nat) :
    (specAllowed m.status target = true ∧
      transitionState m target now =
        Except.ok { m with status := target, updated_at := now } ∧
      runOp m (Op.transition target now) =
        ({ m with status := target, updated_at := now },
          [{ m with status := target, updated_at := now }])) ∨
    (specAllowed m.status target = false ∧
      transitionState m target now =
        Except.error { current := m.status, target := target } ∧
      runOp m (Op.transition target now) = (m, [])) := by
  by_cases h : (STATE_TRANSITIONS m.status).contains target = true
  · have hmem : target ∈ STATE_TRANSITIONS m.status := by simpa using h
    left
    refine ⟨by rw [← stateTransitions_eq_specAllowed]; exact h, ?_, ?_⟩
    · simp [transitionState, hmem]
    · simp [runOp, transitionState, hmem]
  · have hmem : target ∉ STATE_TRANSITIONS m.status := by simpa using h
    right
    refine ⟨by rw [← stateTransitions_eq_specAllowed]; exact Bool.eq_false_iff.mpr h, ?_, ?_⟩
    · simp [transitionState, hmem]
    · simp [runOp, transitionState, hmem]

/-- Witness for C1: from a fresh `pending` project the transition to
`analyzing` is allowed and performed. -/
theorem C1_transitionState_follows_table_witness :
    transitionState (createManifest 0) analyzing 5 =
      Except.ok { createManifest 0 with status := analyzing, updated_at := 5 } := by
  rcases C1_transitionState_follows_table (createManifest 0) analyzing 5 with
    ⟨_, h, _⟩ | ⟨h, _, _⟩
  · exact h
  · exact absurd h (by decide)

/-- C2 (amended): in the persisted trace of any operation sequence applied
to a freshly created project, every status change is an edge of the
spec's transition table or lands in one of the four statuses that
`handleError`, `attemptDegradedRetry`, `moveToDeadLetter` and
`recoverStaleProject` assign directly (`failed`, `stale_recovered`,
`degraded_retry`, `dead_letter`). -/
theorem C2_status_changes (now0 : Nat) (ops : List Op) (p : Status × Status)
    (hp : p ∈ statusChanges (statusTrace (createManifest now0) ops)) :
    specAllowed p.1 p.2 = true ∨
      p.2 = failed ∨ p.2 = stale_recovered ∨ p.2 = degraded_retry ∨ p.2 = dead_letter :=
  exec_statusChanges ops (createManifest now0) p hp

/-- Counterexample to C2 as stated: `handleError` on a freshly created
(`pending`) project persists the status change `pending → failed`, which
is not an edge of the transition table. -/
theorem C2_counterexample :
    ¬ ∀ p ∈ statusChanges (statusTrace (createManifest 0)
        [Op.handleErr (JsError.plain "boom") "analyzing" 1 true]),
      specAllowed p.1 p.2 = true := by
  decide

/-- Witness for C2 at a concrete trace: the single checked transition
`pending → analyzing` is a table edge. -/
theorem C2_status_changes_witness :
    specAllowed pending analyzing = true ∨
      analyzing = failed ∨ analyzing = stale_recovered ∨ analyzing = degraded_retry ∨
        analyzing = dead_letter :=
  C2_status_changes 0 [Op.transition analyzing 1] (pending, analyzing) (by decide)

/-- C3 (amended): when the classifier does not decide to degrade,
`handleError` increments `meta.retry_count` by one and then dead-letters
the project at `retry_count ≥ MAX_RETRIES` or sets status `failed`; and
the retry bound — `meta.retry_count ≤ MAX_RETRIES` unless the status is
`dead_letter` — holds for every manifest reached and every manifest saved,
provided no operation is applied to a manifest already in the terminal
`dead_letter` state. -/
theorem C3_retry_bound :
    (∀ (m : Manifest) (err : JsError) (stage : String) (now : Nat) (cb : Bool),
      shouldDegrade (parseErrorFingerprint err) m.meta = false →
      (handleError m err stage now cb).1.meta.retry_count = m.meta.retry_count + 1 ∧
      ((m.meta.retry_count + 1 ≥ MAX_RETRIES ∧
          (handleError m err stage now cb).1.status = dead_letter) ∨
        (m.meta.retry_count + 1 < MAX_RETRIES ∧
          (handleError m err stage now cb).1.status = failed))) ∧
    (∀ (now0 : Nat) (m1 : Manifest), Reaches (createManifest now0) m1 →
      (m1.meta.retry_count ≤ MAX_RETRIES ∨ m1.status = dead_letter) ∧
      ∀ (op : Op) (s : Manifest), m1.status ≠ dead_letter → s ∈ (runOp m1 op).2 →
        s.meta.retry_count ≤ MAX_RETRIES ∨ s.status = dead_letter) := by
  constructor
  · intro m err stage now cb hdeg
    exact handleError_no_degrade m err stage now cb hdeg
  · intro now0 m1 h
    have hstrong := reaches_retry_strong now0 m1 h
    constructor
    · rcases hstrong with hdl | hle
      · exact Or.inr hdl
      · exact Or.inl (Nat.le_of_succ_le hle)
    · intro op s hnd hs
      rcases hstrong with hdl | hle
      · exact absurd hdl hnd
      · exact (runOp_retry_preserved m1 op hle).2 s hs

/-- Counterexample to C3 as stated: pumping `handleError` through the
dead-letter state and degrading back out yields a reachable persisted
manifest with `retry_count = 4 > MAX_RETRIES` whose status is
`analyzing`, not `dead_letter`. -/
theorem C3_counterexample :
    (exec (createManifest 0) retryPumpOps).1.meta.retry_count > MAX_RETRIES ∧
    ¬ (exec (createManifest 0) retryPumpOps).1.status = dead_letter := by
  decide

/-- Witness for C3 at concrete inputs: a non-degradable plain error on a
fresh project increments the counter to one, and the fresh project
satisfies the retry bound. -/
theorem C3_retry_bound_witness :
    ((handleError (createManifest 0) (JsError.plain "kaboom") "analyzing" 1 true).1.meta.retry_count
        = (createManifest 0).meta.retry_count + 1) ∧
    ((createManifest 0).meta.retry_count ≤ MAX_RETRIES ∨
      (createManifest 0).status = dead_letter) := by
  refine ⟨(C3_retry_bound.1 (createManifest 0) (JsError.plain "kaboom") "analyzing" 1 true
    (by decide)).1, ?_⟩
  exact (C3_retry_bound.2 0 (createManifest 0) Reaches.refl).1

theorem findFsCode_spec (cs : List Char) (c : String) (h : findFsCode cs = some c) :
    c ∈ fsCodes ∧ charsContain c.data cs = true := by
  induction cs with
  | nil => simp [findFsCode] at h
  | cons x rest ih =>
    rw [findFsCode] at h
    cases hfind : fsCodes.find? (fun code => code.data.isPrefixOf (x :: rest)) with
    | some code =>
      rw [hfind] at h
      cases h
      refine ⟨List.mem_of_find?_eq_some hfind, ?_⟩
      have hpref := List.find?_some hfind
      rw [charsContain]
      simp only [hpref, Bool.true_or]
    | none =>
      rw [hfind] at h
      obtain ⟨h1, h2⟩ := ih h
      refine ⟨h1, ?_⟩
      rw [charsContain]
      simp only [h2, Bool.or_true]

theorem findFsCode_isSome (cs : List Char) (code : String)
    (hmem : code ∈ fsCodes) (h : charsContain code.data cs = true) :
    (findFsCode cs).isSome = true := by
  induction cs with
  | nil =>
    rw [charsContain] at h
    fin_cases hmem <;> exact absurd h (by decide)
  | cons x rest ih =>
    rw [charsContain] at h
    rw [findFsCode]
    cases hfind : fsCodes.find? (fun cd => cd.data.isPrefixOf (x :: rest)) with
    | some c => rfl
    | none =>
      rw [Bool.or_eq_true] at h
      rcases h with hpre | hrest
      · have := List.find?_eq_none.mp hfind code hmem
        simp [hpre] at this
      · exact ih hrest

/-- C4: `shouldDegrade(fp, manifest)` is true exactly when fewer models
than the hierarchy length have been used AND the fingerprint is a
degradable validation error or a provider-API error whose (lowercased)
code contains none of the rate-limit/auth markers; in particular every
network, filesystem and unknown fingerprint never degrades. -/
theorem C4_shouldDegrade (fp : ErrorFingerprint) (meta : Meta) :
    (shouldDegrade fp meta = true ↔
      (meta.used_models.length < MODEL_HIERARCHY.length ∧
        ((fp.type = FingerprintType.zod_validation ∧ fp.code ∈ DEGRADABLE_ERROR_CODES) ∨
          (fp.type = FingerprintType.gemini_api ∧
            ∀ code ∈ nonDegradableCodes, strContains fp.code.toLower code = false)))) ∧
    ((fp.type = FingerprintType.network ∨ fp.type = FingerprintType.file_system ∨
        fp.type = FingerprintType.unknown) → shouldDegrade fp meta = false) := by
  unfold shouldDegrade
  by_cases hlen : meta.used_models.length ≥ MODEL_HIERARCHY.length
  · rw [if_pos hlen]
    constructor
    · simp [Nat.not_lt.mpr hlen]
    · intro _
      rfl
  · rw [if_neg hlen]
    have hlt : meta.used_models.length < MODEL_HIERARCHY.length := Nat.lt_of_not_le hlen
    cases htype : fp.type with
    | zod_validation =>
      refine ⟨?_, ?_⟩
      · simp [hlt]
      · rintro (h | h | h) <;> simp at h
    | gemini_api =>
      refine ⟨?_, ?_⟩
      · constructor
        · intro hb
          refine ⟨hlt, Or.inr ⟨rfl, ?_⟩⟩
          intro code hcode
          rw [Bool.not_eq_true'] at hb
          have := List.any_eq_false.mp hb code hcode
          rw [Bool.not_eq_true] at this
          exact this
        · rintro ⟨-, hz | hg⟩
          · exact absurd hz.1 (by simp)
          · rw [Bool.not_eq_true', List.any_eq_false]
            intro x hx
            rw [Bool.not_eq_true]
            exact hg.2 x hx
      · rintro (h | h | h) <;> simp at h
    | network =>
      refine ⟨by simp, fun _ => rfl⟩
    | file_system =>
      refine ⟨by simp, fun _ => rfl⟩
    | unknown =>
      refine ⟨by simp, fun _ => rfl⟩

/-- Witness for C4 at a concrete fingerprint: a network fingerprint never
degrades. -/
theorem C4_shouldDegrade_witness :
    shouldDegrade
      { type := FingerprintType.network, code := "network_error", message := "fetch failed" }
      {} = false :=
  (C4_shouldDegrade
    { type := FingerprintType.network, code := "network_error", message := "fetch failed" }
    {}).2 (Or.inl rfl)

theorem isPrefixOf_comparable (l : List Char) :
    ∀ a b : List Char, a.isPrefixOf l = true → b.isPrefixOf l = true →
      a.isPrefixOf b = true ∨ b.isPrefixOf a = true := by
  induction l with
  | nil =>
    intro a b ha hb
    cases a with
    | nil =>
      left
      cases b <;> rfl
    | cons x as => exact absurd ha (by simp [List.isPrefixOf])
  | cons y l ih =>
    intro a b ha hb
    cases a with
    | nil =>
      left
      cases b <;> rfl
    | cons x as =>
      cases b with
      | nil => right; rfl
      | cons z bs =>
        rw [show List.isPrefixOf (x :: as) (y :: l) = (x == y && as.isPrefixOf l)
          from rfl, Bool.and_eq_true] at ha
        rw [show List.isPrefixOf (z :: bs) (y :: l) = (z == y && bs.isPrefixOf l)
          from rfl, Bool.and_eq_true] at hb
        have hx : x = y := by simpa using ha.1
        have hz : z = y := by simpa using hb.1
        rcases ih as bs ha.2 hb.2 with h | h
        · left
          rw [show List.isPrefixOf (x :: as) (z :: bs) = (x == z && as.isPrefixOf bs)
            from rfl]
          simp [hx, hz, h]
        · right
          rw [show List.isPrefixOf (z :: bs) (x :: as) = (z == x && bs.isPrefixOf as)
            from rfl]
          simp [hx, hz, h]

theorem fsCodes_unique_at (c d : String) (hc : c ∈ fsCodes) (hd : d ∈ fsCodes)
    (l : List Char) (h1 : c.data.isPrefixOf l = true) (h2 : d.data.isPrefixOf l = true) :
    c = d := by
  have hcomp := isPrefixOf_comparable l c.data d.data h1 h2
  simp only [fsCodes, List.mem_cons, List.not_mem_nil, or_false] at hc hd
  rcases hc with rfl | rfl | rfl | rfl | rfl <;>
    rcases hd with rfl | rfl | rfl | rfl | rfl <;>
      first
        | rfl
        | (rcases hcomp with h | h <;> exact absurd h (by decide))

theorem findFsCode_leftmost (cs : List Char) (c : String) (h : findFsCode cs = some c) :
    ∃ i : Nat, c.data.isPrefixOf (cs.drop i) = true ∧
      (∀ (j : Nat), ∀ d ∈ fsCodes, d.data.isPrefixOf (cs.drop j) = true → i ≤ j) ∧
      (∀ d ∈ fsCodes, d.data.isPrefixOf (cs.drop i) = true → d = c) := by
  induction cs with
  | nil => simp [findFsCode] at h
  | cons x rest ih =>
    rw [findFsCode] at h
    cases hfind : fsCodes.find? (fun code => code.data.isPrefixOf (x :: rest)) with
    | some code =>
      rw [hfind] at h
      cases h
      refine ⟨0, ?_, ?_, ?_⟩
      · simpa using List.find?_some hfind
      · intro j d _ _
        exact Nat.zero_le j
      · intro d hd hpre
        simp only [List.drop_zero] at hpre
        exact fsCodes_unique_at d c hd (List.mem_of_find?_eq_some hfind)
          (x :: rest) hpre (by simpa using List.find?_some hfind)
    | none =>
      rw [hfind] at h
      obtain ⟨i, hpre0, hmin, huniq⟩ := ih h
      refine ⟨i + 1, ?_, ?_, ?_⟩
      · simpa [List.drop_succ_cons] using hpre0
      · intro j d hd hpre
        cases j with
        | zero =>
          exfalso
          have hnone := List.find?_eq_none.mp hfind d hd
          simp only [List.drop_zero] at hpre
          simp [hpre] at hnone
        | succ j2 =>
          have := hmin j2 d hd (by simpa [List.drop_succ_cons] using hpre)
          omega
      · intro d hd hpre
        exact huniq d hd (by simpa [List.drop_succ_cons] using hpre)

/-- C5 (amended): every plain exception whose message contains `ENOENT`,
`EACCES` or `EPERM` — these three are the only codes the filesystem guard
checks — and matches neither the provider nor the network patterns is
classified as a `file_system` fingerprint whose code is the leftmost of
the five codes of the extractor regex occurring in the message,
lowercased: the code `c` matches at some position `i` of the message, no
code of the five matches at any earlier position, and `c` is the only
code matching at `i`. -/
theorem C5_filesystem_classification (msg : String)
    (hfs : strContains msg "ENOENT" = true ∨ strContains msg "EACCES" = true ∨
      strContains msg "EPERM" = true)
    (h1 : strContains msg "GoogleGenerativeAI" = false)
    (h2 : strContains msg "gemini" = false)
    (h3 : strContains msg "ECONNREFUSED" = false)
    (h4 : strContains msg "ETIMEDOUT" = false)
    (h5 : strContains msg "network" = false)
    (h6 : strContains msg "fetch" = false) :
    (parseErrorFingerprint (JsError.plain msg)).type = FingerprintType.file_system ∧
    ∃ c ∈ fsCodes, ∃ i : Nat,
      c.data.isPrefixOf (msg.data.drop i) = true ∧
      (∀ (j : Nat), ∀ d ∈ fsCodes, d.data.isPrefixOf (msg.data.drop j) = true → i ≤ j) ∧
      (∀ d ∈ fsCodes, d.data.isPrefixOf (msg.data.drop i) = true → d = c) ∧
      strContains msg c = true ∧
      (parseErrorFingerprint (JsError.plain msg)).code = c.toLower := by
  have hguard : (strContains msg "ENOENT" || strContains msg "EACCES" ||
      strContains msg "EPERM") = true := by
    rcases hfs with h | h | h <;> simp [h]
  have hp : parseErrorFingerprint (JsError.plain msg) =
      { type := FingerprintType.file_system, code := extractFsErrorCode msg,
        message := msg } := by
    simp only [parseErrorFingerprint]
    rw [if_neg (by simp [h1, h2]), if_neg (by simp [h3, h4, h5, h6]),
      if_pos (by simp [hguard])]
  rw [hp]
  refine ⟨rfl, ?_⟩
  have hsome : (findFsCode msg.data).isSome = true := by
    rcases hfs with h | h | h
    · exact findFsCode_isSome msg.data "ENOENT" (by decide) h
    · exact findFsCode_isSome msg.data "EACCES" (by decide) h
    · exact findFsCode_isSome msg.data "EPERM" (by decide) h
  obtain ⟨c, hc⟩ := Option.isSome_iff_exists.mp hsome
  obtain ⟨hmem, hinf⟩ := findFsCode_spec msg.data c hc
  obtain ⟨i, hpre, hmin, huniq⟩ := findFsCode_leftmost msg.data c hc
  refine ⟨c, hmem, i, hpre, hmin, huniq, hinf, ?_⟩
  simp [extractFsErrorCode, hc]

/-- Counterexample to C5 as stated: a message containing only `EEXIST`
(matching neither the provider nor the network patterns) is classified
`unknown`, not `filesystem`, because the filesystem guard only checks
`ENOENT`, `EACCES` and `EPERM`. -/
theorem C5_counterexample :
    strContains "EEXIST: file already exists" "EEXIST" = true ∧
    strContains "EEXIST: file already exists" "GoogleGenerativeAI" = false ∧
    strContains "EEXIST: file already exists" "gemini" = false ∧
    strContains "EEXIST: file already exists" "ECONNREFUSED" = false ∧
    strContains "EEXIST: file already exists" "ETIMEDOUT" = false ∧
    strContains "EEXIST: file already exists" "network" = false ∧
    strContains "EEXIST: file already exists" "fetch" = false ∧
    (parseErrorFingerprint (JsError.plain "EEXIST: file already exists")).type
      = FingerprintType.unknown := by
  decide

/-- Witness for C5 at a concrete message containing `ENOENT`. -/
theorem C5_filesystem_classification_witness :
    (parseErrorFingerprint (JsError.plain "ENOENT: no such file")).type
      = FingerprintType.file_system ∧
    ∃ c ∈ fsCodes, ∃ i : Nat,
      c.data.isPrefixOf ("ENOENT: no such file".data.drop i) = true ∧
      (∀ (j : Nat), ∀ d ∈ fsCodes,
        d.data.isPrefixOf ("ENOENT: no such file".data.drop j) = true → i ≤ j) ∧
      (∀ d ∈ fsCodes,
        d.data.isPrefixOf ("ENOENT: no such file".data.drop i) = true → d = c) ∧
      strContains "ENOENT: no such file" c = true ∧
      (parseErrorFingerprint (JsError.plain "ENOENT: no such file")).code = c.toLower :=
  C5_filesystem_classification "ENOENT: no such file" (Or.inl (by decide)) (by decide)
    (by decide) (by decide) (by decide) (by decide) (by decide)

/-- C6 (code-bug evidence): `generate` never reads the `preferredModel`
option.  With every model available and every call succeeding, a call
preferring the second chain model still attempts — and returns — the
chain head, and the result is identical for every `preferredModel`
value. -/
theorem C6_preferred_model_ignored :
    (generate "prompt"
        { projectId := "p", preferredModel := some "gemini-3-flash-preview" }
        (fun _ => true) (fun _ _ _ => Except.ok ("ok", 7))).1 =
      ["gemini-3-pro-preview"] ∧
    (generate "prompt"
        { projectId := "p", preferredModel := some "gemini-3-flash-preview" }
        (fun _ => true) (fun _ _ _ => Except.ok ("ok", 7))).2 =
      Except.ok
        { text := "ok", modelUsed := "gemini-3-pro-preview", isFallbackMode := false,
          tokensUsed := 7 } ∧
    ∀ preferred : Option String,
      generate "prompt" { projectId := "p", preferredModel := preferred }
          (fun _ => true) (fun _ _ _ => Except.ok ("ok", 7)) =
        generate "prompt" { projectId := "p" }
          (fun _ => true) (fun _ _ _ => Except.ok ("ok", 7)) :=
  ⟨rfl, rfl, fun _ => rfl⟩

/-- C7: for every file accepted by the watcher (allowlisted extension and
readable content), the move into the processed directory strictly
precedes the dispatch of the ready event, the dispatched metadata already
points at the processed path, and the file ends in the processed
directory even when the handler throws. -/
theorem C7_move_before_dispatch (config : WatcherConfig) (filePath content : String)
    (handlerThrows : FileMetadata → Bool)
    (hext : (strEndsWith (strToLower filePath) ".md" ||
      strEndsWith (strToLower filePath) ".txt" ||
      strEndsWith (strToLower filePath) ".markdown") = true) :
    ∃ (i j : Nat) (metadata : FileMetadata),
      i < j ∧
      metadata.path = config.processedDir ++ "/" ++ basename filePath ∧
      (handleFileAdd config filePath (Except.ok content) handlerThrows).1.get? i =
        some (WatchEffect.moveFile filePath
          (config.processedDir ++ "/" ++ basename filePath)) ∧
      (handleFileAdd config filePath (Except.ok content) handlerThrows).1.get? j =
        some (WatchEffect.dispatchReady metadata) ∧
      (handleFileAdd config filePath (Except.ok content) handlerThrows).2 =
        FileLocation.processed := by
  have hguard : (!(strEndsWith (strToLower filePath) ".md") &&
      !(strEndsWith (strToLower filePath) ".txt") &&
      !(strEndsWith (strToLower filePath) ".markdown")) = false := by
    rw [Bool.or_eq_true, Bool.or_eq_true] at hext
    rcases hext with (h | h) | h <;> simp [h]
  unfold handleFileAdd
  simp only [hguard, Bool.false_eq_true, if_false]
  split
  · exact ⟨1, 2, _, by omega, rfl, rfl, rfl, rfl⟩
  · exact ⟨1, 2, _, by omega, rfl, rfl, rfl, rfl⟩

/-- Witness for C7 at a concrete accepted file whose handler throws. -/
theorem C7_move_before_dispatch_witness :
    ∃ (i j : Nat) (metadata : FileMetadata),
      i < j ∧
      metadata.path = "processed" ++ "/" ++ basename "incoming/x.md" ∧
      (handleFileAdd watcherCfg "incoming/x.md" (Except.ok "hello world")
          (fun _ => true)).1.get? i =
        some (WatchEffect.moveFile "incoming/x.md"
          ("processed" ++ "/" ++ basename "incoming/x.md")) ∧
      (handleFileAdd watcherCfg "incoming/x.md" (Except.ok "hello world")
          (fun _ => true)).1.get? j =
        some (WatchEffect.dispatchReady metadata) ∧
      (handleFileAdd watcherCfg "incoming/x.md" (Except.ok "hello world")
          (fun _ => true)).2 = FileLocation.processed :=
  C7_move_before_dispatch watcherCfg "incoming/x.md" "hello world" (fun _ => true)
    (by decide)

/-- C8: at full concurrency with a full waiting queue under the
drop-lowest policy, an incoming request of strictly higher priority than
the last (lowest-priority) waiter evicts that waiter — rejected with a
queue-full error — and is itself inserted into the waiting queue;
otherwise the incoming request is rejected with a queue-full error and
the waiting queue is unchanged. -/
theorem C8_enqueue_drop_lowest (config : PriorityQueueConfig) (state : PQState)
    (priority lastItem : Priority)
    (hin : state.processing = config.maxConcurrent)
    (hcap : state.queue.length = config.maxQueueSize)
    (hpos : 0 < config.maxQueueSize)
    (hpolicy : config.dropLowestOnFull = true)
    (hlast : state.queue.getLast? = some lastItem) :
    (PRIORITY_WEIGHTS priority < PRIORITY_WEIGHTS lastItem →
      enqueue config state priority =
        .waiting { state with queue := insertByPriority state.queue.dropLast priority }
          true) ∧
    (¬ PRIORITY_WEIGHTS priority < PRIORITY_WEIGHTS lastItem →
      enqueue config state priority = .rejectedIncoming state) := by
  have hnotlt : ¬ state.processing < config.maxConcurrent := by omega
  have hfull : (config.maxQueueSize > 0 && decide (state.queue.length ≥ config.maxQueueSize))
      = true := by
    simp only [Bool.and_eq_true, decide_eq_true_eq]
    omega
  constructor
  · intro hlt
    simp only [enqueue, if_neg hnotlt, ge_iff_le, gt_iff_lt]
    rw [if_pos (by simp only [Bool.and_eq_true, decide_eq_true_eq]; omega)]
    rw [if_pos hpolicy]
    unfold dropLowestPriority
    rw [hlast]
    dsimp only
    rw [if_pos hlt]
  · intro hge
    simp only [enqueue, if_neg hnotlt, ge_iff_le, gt_iff_lt]
    rw [if_pos (by simp only [Bool.and_eq_true, decide_eq_true_eq]; omega)]
    rw [if_pos hpolicy]
    unfold dropLowestPriority
    rw [hlast]
    dsimp only
    rw [if_neg hge]

/-- Witness for C8 at a concrete full queue: a high-priority arrival
evicts the waiting low-priority request; a second low-priority arrival is
itself rejected. -/
theorem C8_enqueue_drop_lowest_witness :
    (enqueue { maxConcurrent := 1, maxQueueSize := 1 }
        { queue := [Priority.low], processing := 1 } Priority.high =
      .waiting { queue := [Priority.high], processing := 1 } true) ∧
    (enqueue { maxConcurrent := 1, maxQueueSize := 1 }
        { queue := [Priority.high], processing := 1 } Priority.low =
      .rejectedIncoming { queue := [Priority.high], processing := 1 }) := by
  constructor
  · exact (C8_enqueue_drop_lowest { maxConcurrent := 1, maxQueueSize := 1 }
      { queue := [Priority.low], processing := 1 } Priority.high Priority.low
      rfl rfl (by decide) rfl rfl).1 (by decide)
  · exact (C8_enqueue_drop_lowest { maxConcurrent := 1, maxQueueSize := 1 }
      { queue := [Priority.high], processing := 1 } Priority.low Priority.high
      rfl rfl (by decide) rfl rfl).2 (by decide)

/-- C9 (code-bug evidence): the token bucket's wait is the exact,
deterministic `(1 − tokens)/refill_rate` seconds — the configuration has
no jitter factor, and no strictly positive jitter factor is compatible
with the wait the code computes. -/
theorem C9_wait_has_no_jitter :
    acquire { maxTokens := 1, refillRate := 1 } { tokens := 0, lastRefillTime := 0 } 0 =
      .waited 1000 { tokens := 0, lastRefillTime := 1000 } ∧
    ∀ j : ℚ, 0 < j →
      ¬ ∀ r : ℚ, 1 - j ≤ r → r ≤ 1 + j →
        ∃ s2, acquire { maxTokens := 1, refillRate := 1 }
            { tokens := 0, lastRefillTime := 0 } 0 = .waited (1000 * r) s2 := by
  have hbase : acquire { maxTokens := 1, refillRate := 1 }
      { tokens := 0, lastRefillTime := 0 } 0 =
      .waited 1000 { tokens := 0, lastRefillTime := 1000 } := by
    unfold acquire refill
    dsimp only
    rw [if_neg (by norm_num)]
    simp only [AcquireOutcome.waited.injEq, BucketState.mk.injEq]
    norm_num
  refine ⟨hbase, ?_⟩
  intro j hj h
  obtain ⟨s2, hs2⟩ := h (1 + j) (by linarith) (by linarith)
  rw [hbase, AcquireOutcome.waited.injEq] at hs2
  have h1 := hs2.1
  nlinarith

/-- C10: a keyword already present in the trend store always comes back
with `decay_risk = false`, no matter how stale its previous `last_seen`
was: `lastSeen` is overwritten with `now` before the elapsed-hours value
driving `decay_risk` is computed, so that value is always zero. -/
theorem C10_decay_risk_always_false (cache : List (String × TrendCacheEntry))
    (keyword : String) (now : ℚ) (existing : TrendCacheEntry)
    (h : cache.lookup keyword = some existing) :
    (enrichWithAuthority cache keyword now).1.decay_risk = false := by
  unfold enrichWithAuthority
  rw [h]
  dsimp only
  rw [decide_eq_false_iff_not, DECAY_THRESHOLD_HOURS]
  norm_num

/-- Witness for C10: an entry last seen at epoch 0 and re-observed 10000
hours later still reports `decay_risk = false`. -/
theorem C10_decay_risk_always_false_witness :
    (enrichWithAuthority [("ai", staleAiEntry)] "ai" 36000000000).1.decay_risk
      = false :=
  C10_decay_risk_always_false _ "ai" 36000000000 staleAiEntry rfl
